import Mathlib

/-!
Shallow embedding of the PDFtoSlides repository (src/converter.py and
src/app.py) together with theorems settling the specification claims.

Text is modelled as `List Char`.  Filesystem and library effects
(temp-directory creation, rasterization, image saving, presentation
saving, directory removal, file removal) are modelled by explicit
success flags in an environment record; an operation whose flag is off
behaves as the corresponding Python call raising an exception, which the
source catches exactly where `try`/`except` blocks appear in the code.
-/

namespace PDFtoSlides

/-- Python `str.strip` whitespace predicate restricted to the ASCII
whitespace characters (space, tab, newline, carriage return, vertical
tab, form feed), which are the ones the claims exercise. -/
def isPyWs (c : Char) : Bool :=
  c = ' ' || c = '\t' || c = '\n' || c = '\r' || c = Char.ofNat 11 || c = Char.ofNat 12

/-- Python `str.strip()`: drop whitespace from both ends. -/
def pyStrip (l : List Char) : List Char :=
  ((l.dropWhile isPyWs).reverse.dropWhile isPyWs).reverse

/-- Python `text.replace('\n\n', '\n')`: one left-to-right pass replacing
non-overlapping occurrences of two newlines by one (converter.py:139). -/
def collapseNN : List Char → List Char
  | '\n' :: '\n' :: rest => '\n' :: collapseNN rest
  | c :: rest => c :: collapseNN rest
  | [] => []

/-- The per-page cleanup applied by `extract_text_from_pdf`
(converter.py:139): `text.replace('\n\n', '\n').strip()`. -/
def cleanText (t : List Char) : List Char :=
  pyStrip (collapseNN t)

/-- Python `text.split('\n')` (converter.py:192): split on every newline,
keeping empty chunks. -/
def splitNL : List Char → List (List Char)
  | [] => [[]]
  | c :: rest =>
    if c = '\n' then [] :: splitNL rest
    else
      match splitNL rest with
      | [] => [[c]]
      | p :: ps => (c :: p) :: ps

/-- Join chunks back with a newline separator (inverse of `splitNL`). -/
def joinNL : List (List Char) → List Char
  | [] => []
  | [p] => p
  | p :: ps => p ++ '\n' :: joinNL ps

/-- Decimal rendering of a page number, as Python string formatting does. -/
def natChars (n : Nat) : List Char :=
  (Nat.repr n).data

/-- One page of a PDF, as seen by the text extractor: whether
`page.extract_text()` succeeds, and the raw text it returns when it does. -/
structure PdfPage where
  extractOk : Bool
  rawText : List Char
deriving DecidableEq, Repr

/-- A PDF file: whether `PdfReader` can open it (used both by the
page-count probe and by the extractor), and its pages. -/
structure PdfFile where
  readable : Bool
  pages : List PdfPage
deriving DecidableEq, Repr

/-- Outcome of the per-image save at converter.py:79-86: the JPEG save
succeeds, or it fails and the PNG fallback succeeds, or both fail (the
PNG save is not guarded, so its exception propagates). -/
inductive ImgSave where
  | jpegOk
  | pngFallback
  | bothFail
deriving DecidableEq, Repr

/-- Success flags for the effectful library calls made by `convert`. -/
structure Env where
  mkdtempOk : Bool
  rasterOk : Bool
  imgSave : ImgSave
  saveOk : Bool
  rmtreeOk : Bool
deriving DecidableEq, Repr

/-- Modelled from the spec: `get_pdf_page_count` is called at
converter.py:36 but its definition lies beyond the end of the provided
source file.  The spec (section 4.4) describes it as a cheap page-count
probe run before extraction and rasterization, and (sections 7-8)
an unreadable PDF makes the job fail; so the probe returns the page
count of a readable PDF and raises (`none`) on an unreadable one. -/
def get_pdf_page_count (pdf : PdfFile) : Option Nat :=
  if pdf.readable then some pdf.pages.length else none

/-- `extract_text_from_pdf` (converter.py:117-149): opens the PDF (an
open failure is caught by the outer `except`, yielding the empty list),
processes `min(len(pages), max_pages)` pages, and for each page appends
the cleaned text on success or the empty string when the per-page
`except` fires. -/
def extract_text_from_pdf (pdf : PdfFile) (max_pages : Nat) : List (List Char) :=
  if pdf.readable then
    (pdf.pages.take max_pages).map fun page =>
      if page.extractOk then cleanText page.rawText else []
  else []

/-- The fixed placeholder pattern for page `n`:
`[Edit this text - Content from page n]` (converter.py:94). -/
def patternChars (n : Nat) : List Char :=
  "[Edit this text - Content from page ".data ++ natChars n ++ "]".data

/-- The full placeholder text substituted at converter.py:94. -/
def placeholderText (n : Nat) : List Char :=
  patternChars n ++
    "\n\nClick here to add your content. You can replace this placeholder text with any content you want.".data

/-- Modelled from the spec: `clean_extracted_text` is called at
converter.py:191 but its definition lies beyond the end of the provided
source file.  The spec (section 4.3) says the content region contains
"the cleaned extracted text (split into paragraphs)" and names no
transformation beyond the cleanup already performed by the extractor, so
it is modelled as the identity. -/
def clean_extracted_text (text : List Char) : List Char :=
  text

/-- The content box of a slide: either the placeholder branch
(converter.py:181-187, a single gray italic run holding the text) or the
extracted-text branch (converter.py:188-205, one styled run per kept
paragraph). -/
inductive SlideContent where
  | placeholder : List Char → SlideContent
  | extracted : List (List Char) → SlideContent
deriving DecidableEq, Repr

/-- The plain text held by a content box. -/
def slideText : SlideContent → List Char
  | SlideContent.placeholder t => t
  | SlideContent.extracted ps => joinNL ps

/-- The paragraphs of a content box. -/
def contentParas : SlideContent → List (List Char)
  | SlideContent.placeholder t => [t]
  | SlideContent.extracted ps => ps

/-- One slide of the output presentation. -/
structure Slide where
  title : List Char
  content : SlideContent
  thumbPath : List Char
deriving DecidableEq, Repr

/-- `text.startswith("[Edit this text")` (converter.py:181). -/
def startsWithEdit (text : List Char) : Bool :=
  List.isPrefixOf "[Edit this text".data text

/-- The kept paragraphs of the extracted-text branch
(converter.py:191-201): split the cleaned text on newlines, and keep the
stripped form of every chunk whose stripped form is non-empty. -/
def paragraphChunks (text : List Char) : List (List Char) :=
  ((splitNL (clean_extracted_text text)).map pyStrip).filter fun p => !p.isEmpty

/-- `create_editable_text_slide` (converter.py:151-229): fixed title,
then the placeholder branch when the text starts with `[Edit this text`,
otherwise one paragraph run per kept chunk, plus the thumbnail. -/
def create_editable_text_slide (text : List Char) (imagePath : List Char)
    (page_num : Nat) : Slide :=
  { title := "Page ".data ++ natChars page_num ++ " - Click to Edit Title".data
    content :=
      if startsWithEdit text then SlideContent.placeholder text
      else SlideContent.extracted (paragraphChunks text)
    thumbPath := imagePath }

/-- The per-page text lookup of the slide loop (converter.py:75):
`pdf_texts[i] if i < len(pdf_texts) else ""`. -/
def pageTextAt (pdf_texts : List (List Char)) (i : Nat) : List Char :=
  if i < pdf_texts.length then pdf_texts.getD i [] else []

/-- The thumbnail path chosen at converter.py:78-86: `page_{n}.jpg`, or
`page_{n}.png` when the JPEG save failed and the PNG fallback ran. -/
def imagePathFor (env : Env) (n : Nat) : List Char :=
  match env.imgSave with
  | ImgSave.jpegOk => "page_".data ++ natChars n ++ ".jpg".data
  | _ => "page_".data ++ natChars n ++ ".png".data

/-- One iteration of the slide loop (converter.py:71-96) for image
index `i`: look up the page text, substitute the placeholder when the
text is empty or its stripped length is below 20, and build the slide. -/
def buildSlide (env : Env) (pdf_texts : List (List Char)) (i : Nat) : Slide :=
  let page_text := pageTextAt pdf_texts i
  let page_text2 :=
    if page_text = [] ∨ (pyStrip page_text).length < 20 then placeholderText (i + 1)
    else page_text
  create_editable_text_slide page_text2 (imagePathFor env (i + 1)) (i + 1)

/-- Observable outcome of one `convert` call: the returned boolean, the
slides of the saved presentation (empty when no file was saved), whether
the page-limit warning of converter.py:38 was logged, and whether the
temporary directory still exists after the `finally` block ran. -/
structure ConvertResult where
  success : Bool
  slides : List Slide
  warned : Bool
  tempDirExists : Bool
deriving DecidableEq, Repr

/-- `PDFToPowerPointConverter.convert` (converter.py:18-115).  The body
runs under a `try` whose `except` turns any exception into `False`, and
a `finally` that attempts `shutil.rmtree` on the temp directory inside
its own `try`/`except`, so a failed removal is logged and swallowed. -/
def convert (pdf : PdfFile) (env : Env) (max_pages : Nat) : ConvertResult :=
  if env.mkdtempOk then
    let dirAfter := !env.rmtreeOk
    match get_pdf_page_count pdf with
    | none =>
      { success := false, slides := [], warned := false, tempDirExists := dirAfter }
    | some page_count =>
      let warned := decide (max_pages < page_count)
      let last_page := if max_pages < page_count then max_pages else page_count
      let pdf_texts := extract_text_from_pdf pdf last_page
      if env.rasterOk then
        let images := List.range last_page
        if images.isEmpty then
          { success := false, slides := [], warned := warned, tempDirExists := dirAfter }
        else if env.imgSave = ImgSave.bothFail then
          { success := false, slides := [], warned := warned, tempDirExists := dirAfter }
        else
          let slides := images.map fun i => buildSlide env pdf_texts i
          if env.saveOk then
            { success := true, slides := slides, warned := warned, tempDirExists := dirAfter }
          else
            { success := false, slides := [], warned := warned, tempDirExists := dirAfter }
      else
        { success := false, slides := [], warned := warned, tempDirExists := dirAfter }
  else
    { success := false, slides := [], warned := false, tempDirExists := false }

/-- The characters after the last dot of a filename:
`filename.rsplit('.', 1)[1]` when a dot is present (app.py:34). -/
def extAfterLastDot (l : List Char) : List Char :=
  (l.reverse.takeWhile fun c => c ≠ '.').reverse

/-- `allowed_file` (app.py:33-34): the name contains a dot and the part
after the last dot, lowercased, is `pdf`. -/
def allowed_file (filename : List Char) : Bool :=
  filename.contains '.' && ((extAfterLastDot filename).map Char.toLower == "pdf".data)

/-- The observable response of the upload route: the flash message (if
any), whether the client was redirected back to the index, and whether
`file.save` ran. -/
structure UploadResponse where
  flashMessage : Option (List Char)
  redirected : Bool
  fileSaved : Bool
deriving DecidableEq, Repr

/-- `upload_file` (app.py:57-116) up to the point where the uploaded
file is written to disk.  The request is modelled by the `file` field:
`none` when the field is absent, otherwise its filename.  The three
rejection paths (missing field at app.py:60-62, empty name at
app.py:65-67, bad extension at app.py:69-71) flash and redirect before
`file.save(filepath)` at app.py:80. -/
def upload_file (req : Option (List Char)) : UploadResponse :=
  match req with
  | none =>
    { flashMessage := some "No file selected".data, redirected := true, fileSaved := false }
  | some filename =>
    if filename.isEmpty then
      { flashMessage := some "No file selected".data, redirected := true, fileSaved := false }
    else if allowed_file filename then
      { flashMessage := none, redirected := false, fileSaved := true }
    else
      { flashMessage := some "Invalid file type. Please upload a PDF file.".data,
        redirected := true, fileSaved := false }

/-- A directory entry as the cleanup sweep sees it: its name, whether
`os.path.isfile` holds, and its modification time in seconds. -/
structure FsEntry where
  name : List Char
  isRegularFile : Bool
  mtime : Int
deriving DecidableEq, Repr

/-- The condition under which the sweep attempts to delete an entry
(app.py:41-47): not named `.gitkeep`, a regular file, and modified more
than 3600 seconds before `now`. -/
def deletable (now : Int) (f : FsEntry) : Bool :=
  !(f.name == ".gitkeep".data) && f.isRegularFile && decide (now - f.mtime > 3600)

/-- The per-folder loop of `cleanup_old_files` (app.py:39-50), returning
the entries still present afterwards.  `removeOk` tells whether
`os.remove` succeeds on a given name; a failed removal is caught at
app.py:49-50 and the file stays. -/
def sweepFolder (now : Int) (removeOk : List Char → Bool) : List FsEntry → List FsEntry
  | [] => []
  | f :: rest =>
    if f.name == ".gitkeep".data then f :: sweepFolder now removeOk rest
    else if f.isRegularFile && decide (now - f.mtime > 3600) then
      if removeOk f.name then sweepFolder now removeOk rest
      else f :: sweepFolder now removeOk rest
    else f :: sweepFolder now removeOk rest

/-- `cleanup_old_files` (app.py:36-50): sweep the upload folder and the
output folder. -/
def cleanup_old_files (now : Int) (removeOk : List Char → Bool)
    (upload output : List FsEntry) : List FsEntry × List FsEntry :=
  (sweepFolder now removeOk upload, sweepFolder now removeOk output)

/-- The `GET /` route (app.py:52-55): run the cleanup sweep, then render
the index template. -/
def indexRoute (now : Int) (removeOk : List Char → Bool)
    (upload output : List FsEntry) : (List FsEntry × List FsEntry) × List Char :=
  (cleanup_old_files now removeOk upload output, "index.html".data)

/-! ## Helper lemmas about the text cleanup -/

theorem head?_dropWhile_false {p : Char → Bool} {l : List Char} {c : Char}
    (h : (l.dropWhile p).head? = some c) : p c = false := by
  induction l with
  | nil => simp [List.dropWhile] at h
  | cons a l ih =>
    by_cases hp : p a
    · rw [List.dropWhile_cons_of_pos hp] at h
      exact ih h
    · rw [List.dropWhile_cons_of_neg hp] at h
      simp at h
      subst h
      exact Bool.eq_false_iff.mpr hp

theorem pyStrip_infix_self (l : List Char) : pyStrip l <:+: l := by
  unfold pyStrip
  obtain ⟨s, hs⟩ := List.dropWhile_suffix (l := (l.dropWhile isPyWs).reverse) (p := isPyWs)
  obtain ⟨s2, hs2⟩ := List.dropWhile_suffix (l := l) (p := isPyWs)
  refine ⟨s2, s.reverse, ?_⟩
  have h3 : (s ++ (l.dropWhile isPyWs).reverse.dropWhile isPyWs).reverse = l.dropWhile isPyWs := by
    rw [hs, List.reverse_reverse]
  rw [List.reverse_append] at h3
  calc s2 ++ ((l.dropWhile isPyWs).reverse.dropWhile isPyWs).reverse ++ s.reverse
      = s2 ++ (((l.dropWhile isPyWs).reverse.dropWhile isPyWs).reverse ++ s.reverse) := by
        rw [List.append_assoc]
    _ = s2 ++ l.dropWhile isPyWs := by rw [h3]
    _ = l := hs2

theorem head?_pyStrip_false {l : List Char} {c : Char}
    (h : (pyStrip l).head? = some c) : isPyWs c = false := by
  unfold pyStrip at h
  rw [List.head?_reverse] at h
  obtain ⟨s, hs⟩ := List.dropWhile_suffix (l := (l.dropWhile isPyWs).reverse) (p := isPyWs)
  have hne : (l.dropWhile isPyWs).reverse.dropWhile isPyWs ≠ [] := by
    intro hnil
    rw [hnil] at h
    simp at h
  have h2 : ((l.dropWhile isPyWs).reverse).getLast? = some c := by
    rw [← hs, List.getLast?_append_of_ne_nil s hne]
    exact h
  rw [List.getLast?_reverse] at h2
  exact head?_dropWhile_false h2

theorem getLast?_pyStrip_false {l : List Char} {c : Char}
    (h : (pyStrip l).getLast? = some c) : isPyWs c = false := by
  unfold pyStrip at h
  rw [List.getLast?_reverse] at h
  exact head?_dropWhile_false h

theorem pyStrip_eq_nil_iff {l : List Char} :
    pyStrip l = [] ↔ ∀ c ∈ l, isPyWs c = true := by
  constructor
  · intro h c hc
    unfold pyStrip at h
    rw [List.reverse_eq_nil_iff, List.dropWhile_eq_nil_iff] at h
    have hsplit := List.takeWhile_append_dropWhile isPyWs l
    rw [← hsplit] at hc
    rcases List.mem_append.mp hc with h1 | h2
    · exact List.mem_takeWhile_imp h1
    · exact h c (List.mem_reverse.mpr h2)
  · intro h
    unfold pyStrip
    rw [List.reverse_eq_nil_iff, List.dropWhile_eq_nil_iff]
    intro x hx
    rw [List.mem_reverse] at hx
    have hsub := List.dropWhile_suffix (l := l) (p := isPyWs)
    exact h x (hsub.subset hx)

/-! ## Lemmas about splitting into paragraphs -/
theorem infix_cons_of {q l : List Char} (c : Char) (h : q <:+: l) : q <:+: c :: l := by
  obtain ⟨s, t, hst⟩ := h
  exact ⟨c :: s, t, by simp [← hst]⟩

theorem splitNL_cons_spec (l : List Char) :
    ∃ p ps, splitNL l = p :: ps ∧ p <+: l ∧ ∀ q ∈ ps, q <:+: l := by
  induction l with
  | nil => exact ⟨[], [], rfl, List.nil_prefix, by simp⟩
  | cons c rest ih =>
    obtain ⟨p, ps, hsp, hp, hps⟩ := ih
    by_cases hc : c = '\n'
    · subst hc
      refine ⟨[], splitNL rest, by simp [splitNL], List.nil_prefix, ?_⟩
      intro q hq
      rw [hsp] at hq
      rcases List.mem_cons.mp hq with h1 | h2
      · subst h1
        obtain ⟨t, ht⟩ := hp
        exact infix_cons_of _ ⟨[], t, by simpa using ht⟩
      · exact infix_cons_of _ (hps q h2)
    · refine ⟨c :: p, ps, ?_, ?_, ?_⟩
      · simp [splitNL, hc, hsp]
      · obtain ⟨t, ht⟩ := hp
        exact ⟨t, by rw [List.cons_append, ht]⟩
      · intro q hq
        exact infix_cons_of _ (hps q hq)

theorem infix_of_mem_splitNL {q : List Char} {l : List Char} (h : q ∈ splitNL l) : q <:+: l := by
  obtain ⟨p, ps, hsp, hp, hps⟩ := splitNL_cons_spec l
  rw [hsp] at h
  rcases List.mem_cons.mp h with h1 | h2
  · subst h1
    obtain ⟨t, ht⟩ := hp
    exact ⟨[], t, by simpa using ht⟩
  · exact hps q h2

theorem joinNL_splitNL (l : List Char) : joinNL (splitNL l) = l := by
  induction l with
  | nil => rfl
  | cons c rest ih =>
    obtain ⟨p, ps, hsp, hp, hps⟩ := splitNL_cons_spec rest
    by_cases hc : c = '\n'
    · subst hc
      rw [show splitNL ('\n' :: rest) = [] :: splitNL rest from by simp [splitNL]]
      rw [hsp]
      rw [show joinNL ([] :: p :: ps) = [] ++ '\n' :: joinNL (p :: ps) from rfl]
      rw [← hsp, ih]
      rfl
    · rw [show splitNL (c :: rest) = (c :: p) :: ps from by simp [splitNL, hc, hsp]]
      rw [hsp] at ih
      cases ps with
      | nil =>
        rw [show joinNL [c :: p] = c :: p from rfl]
        rw [show joinNL [p] = p from rfl] at ih
        rw [ih]
      | cons q qs =>
        rw [show joinNL ((c :: p) :: q :: qs) = (c :: p) ++ '\n' :: joinNL (q :: qs) from rfl]
        rw [show joinNL (p :: q :: qs) = p ++ '\n' :: joinNL (q :: qs) from rfl] at ih
        rw [List.cons_append, ih]

theorem mem_joinNL {c : Char} {ps : List (List Char)} (h : c ∈ joinNL ps) :
    c = '\n' ∨ ∃ p ∈ ps, c ∈ p := by
  induction ps with
  | nil => simp [joinNL] at h
  | cons p qs ih =>
    cases qs with
    | nil =>
      rw [show joinNL [p] = p from rfl] at h
      exact Or.inr ⟨p, List.mem_cons_self p [], h⟩
    | cons q rs =>
      rw [show joinNL (p :: q :: rs) = p ++ '\n' :: joinNL (q :: rs) from rfl] at h
      rcases List.mem_append.mp h with h1 | h2
      · exact Or.inr ⟨p, List.mem_cons_self p _, h1⟩
      · rcases List.mem_cons.mp h2 with h3 | h4
        · exact Or.inl h3
        · rcases ih h4 with h5 | ⟨r, hr, hcr⟩
          · exact Or.inl h5
          · exact Or.inr ⟨r, List.mem_cons_of_mem p hr, hcr⟩

theorem exists_chunk_nonws {l : List Char} (h : pyStrip l ≠ []) :
    ∃ q ∈ splitNL l, pyStrip q ≠ [] := by
  have h1 : ¬∀ c ∈ l, isPyWs c = true := fun hall => h (pyStrip_eq_nil_iff.mpr hall)
  push_neg at h1
  obtain ⟨c, hc, hcws⟩ := h1
  rw [← joinNL_splitNL l] at hc
  rcases mem_joinNL hc with h2 | ⟨q, hq, hcq⟩
  · subst h2
    simp [isPyWs] at hcws
  · refine ⟨q, hq, ?_⟩
    intro hnil
    exact hcws (pyStrip_eq_nil_iff.mp hnil c hcq)

theorem mem_paragraphChunks {p : List Char} {t : List Char}
    (h : p ∈ paragraphChunks t) : p ≠ [] ∧ p <:+: t := by
  unfold paragraphChunks clean_extracted_text at h
  obtain ⟨hmem, hne⟩ := List.mem_filter.mp h
  obtain ⟨q, hq, hpq⟩ := List.mem_map.mp hmem
  subst hpq
  constructor
  · intro hnil
    rw [hnil] at hne
    simp at hne
  · exact (pyStrip_infix_self q).trans (infix_of_mem_splitNL hq)

theorem paragraphChunks_ne_nil {t : List Char} (h : pyStrip t ≠ []) :
    paragraphChunks t ≠ [] := by
  obtain ⟨q, hq, hqs⟩ := exists_chunk_nonws h
  apply List.ne_nil_of_mem (a := pyStrip q)
  unfold paragraphChunks clean_extracted_text
  rw [List.mem_filter]
  refine ⟨List.mem_map.mpr ⟨q, hq, rfl⟩, ?_⟩
  simpa using hqs

/-! ## Lemmas about the conversion pipeline and the web layer -/

theorem convert_ok (pdf : PdfFile) (env : Env)
    (hr : pdf.readable = true) (hp : 0 < pdf.pages.length)
    (h1 : env.mkdtempOk = true) (h2 : env.rasterOk = true)
    (h3 : env.imgSave ≠ ImgSave.bothFail) (h4 : env.saveOk = true) :
    (convert pdf env 30).success = true ∧
      (convert pdf env 30).slides.length = min pdf.pages.length 30 ∧
      ((convert pdf env 30).warned = true ↔ 30 < pdf.pages.length) := by
  by_cases h30 : 30 < pdf.pages.length
  · simp [convert, get_pdf_page_count, hr, h1, h2, h3, h4, h30,
      List.isEmpty_iff, List.range_eq_nil]
    omega
  · have hp2 : pdf.pages.length ≠ 0 := by omega
    simp [convert, get_pdf_page_count, hr, h1, h2, h3, h4, h30, hp2,
      List.isEmpty_iff, List.range_eq_nil]
    omega

theorem patternChars_infix_placeholder (n : Nat) :
    patternChars n <:+: placeholderText n := by
  unfold placeholderText
  exact ⟨[], _, rfl⟩

theorem startsWithEdit_placeholder (n : Nat) :
    startsWithEdit (placeholderText n) = true := by
  unfold startsWithEdit
  rw [List.isPrefixOf_iff_prefix]
  unfold placeholderText patternChars
  have h1 : "[Edit this text".data <+: "[Edit this text - Content from page ".data := by decide
  obtain ⟨t, ht⟩ := h1
  exact ⟨t ++ natChars n ++ "]".data ++
    "\n\nClick here to add your content. You can replace this placeholder text with any content you want.".data,
    by rw [← ht]; simp⟩

theorem buildSlide_content (env : Env) (texts : List (List Char)) (i : Nat) :
    ((pageTextAt texts i = [] ∨ (pyStrip (pageTextAt texts i)).length < 20) →
      patternChars (i + 1) <:+: slideText (buildSlide env texts i).content) ∧
    (¬(pageTextAt texts i = [] ∨ (pyStrip (pageTextAt texts i)).length < 20) →
      contentParas (buildSlide env texts i).content ≠ [] ∧
      ∀ p ∈ contentParas (buildSlide env texts i).content,
        p ≠ [] ∧ p <:+: pageTextAt texts i) := by
  constructor
  · intro hshort
    simp only [buildSlide, create_editable_text_slide]
    rw [if_pos hshort, if_pos (startsWithEdit_placeholder (i + 1))]
    simp only [slideText]
    exact patternChars_infix_placeholder (i + 1)
  · intro hlong
    push_neg at hlong
    obtain ⟨hne, hlen⟩ := hlong
    have hstrip : pyStrip (pageTextAt texts i) ≠ [] := by
      intro hnil
      rw [hnil] at hlen
      simp at hlen
    have hcond : ¬(pageTextAt texts i = [] ∨ (pyStrip (pageTextAt texts i)).length < 20) := by
      push_neg
      exact ⟨hne, hlen⟩
    simp only [buildSlide, create_editable_text_slide]
    rw [if_neg hcond]
    by_cases hs : startsWithEdit (pageTextAt texts i) = true
    · rw [if_pos hs]
      simp only [contentParas]
      refine ⟨by simp, ?_⟩
      intro p hp
      rw [List.mem_singleton] at hp
      subst hp
      exact ⟨hne, ⟨[], [], by simp⟩⟩
    · rw [if_neg hs]
      simp only [contentParas]
      refine ⟨paragraphChunks_ne_nil hstrip, ?_⟩
      intro p hp
      exact mem_paragraphChunks hp

theorem dropWhile_mem_eq_cons {l : List Char} (h : '.' ∈ l) :
    ∃ rest, l.dropWhile (fun c => c ≠ '.') = '.' :: rest := by
  have hne : l.dropWhile (fun c => c ≠ '.') ≠ [] := by
    rw [Ne, List.dropWhile_eq_nil_iff]
    push_neg
    exact ⟨'.', h, by simp⟩
  cases hd : l.dropWhile (fun c => c ≠ '.') with
  | nil => exact absurd hd hne
  | cons a rest =>
    have ha : (decide (a ≠ '.')) = false := head?_dropWhile_false (by rw [hd]; rfl)
    simp at ha
    subst ha
    exact ⟨rest, rfl⟩

theorem split_at_last_dot (fn : List Char) (h : fn.contains '.' = true) :
    ∃ pre, fn = pre ++ '.' :: extAfterLastDot fn := by
  have hmem : '.' ∈ fn.reverse := by
    rw [List.mem_reverse]
    simpa using h
  obtain ⟨rest, hrest⟩ := dropWhile_mem_eq_cons hmem
  have hsplit := List.takeWhile_append_dropWhile (fun c => decide (c ≠ '.')) fn.reverse
  rw [hrest] at hsplit
  refine ⟨rest.reverse, ?_⟩
  have h2 := congrArg List.reverse hsplit
  rw [List.reverse_reverse, List.reverse_append, List.reverse_cons] at h2
  conv_lhs => rw [← h2]
  unfold extAfterLastDot
  simp

theorem allowed_suffix {fn : List Char} (h : allowed_file fn = true) :
    ".pdf".data <:+ fn.map Char.toLower := by
  unfold allowed_file at h
  rw [Bool.and_eq_true] at h
  obtain ⟨hc, he⟩ := h
  rw [beq_iff_eq] at he
  obtain ⟨pre, hpre⟩ := split_at_last_dot fn hc
  refine ⟨pre.map Char.toLower, ?_⟩
  rw [hpre, List.map_append, List.map_cons, he]
  rfl

theorem sweepFolder_eq_filter (now : Int) (removeOk : List Char → Bool)
    (h : ∀ n, removeOk n = true) (l : List FsEntry) :
    sweepFolder now removeOk l = l.filter fun f => !deletable now f := by
  induction l with
  | nil => rfl
  | cons f rest ih =>
    by_cases h1 : f.name == ".gitkeep".data
    · simp [sweepFolder, h1, deletable, ih]
    · by_cases h2 : f.isRegularFile
      · by_cases h3 : now - f.mtime > 3600
        · simp [sweepFolder, h1, h2, h3, deletable, h f.name, ih]
        · simp [sweepFolder, h1, h2, h3, deletable, ih]
      · simp [sweepFolder, h1, h2, deletable, ih]

theorem success_implies (pdf : PdfFile) (env : Env) (mp : Nat)
    (h : (convert pdf env mp).success = true) :
    pdf.readable = true ∧ pdf.pages.length ≠ 0 ∧ env.mkdtempOk = true ∧
      env.rasterOk = true ∧ env.imgSave ≠ ImgSave.bothFail ∧ env.saveOk = true := by
  cases hr : pdf.readable with
  | false =>
    exfalso
    unfold convert get_pdf_page_count at h
    rw [hr] at h
    repeat' split at h
    all_goals simp_all
  | true =>
    unfold convert get_pdf_page_count at h
    rw [hr] at h
    simp only [if_true, reduceIte] at h
    repeat' split at h
    all_goals simp_all
    all_goals simp only [← List.length_eq_zero]
    all_goals omega

theorem tempdir_gone (pdf : PdfFile) (env : Env) (mp : Nat)
    (h : env.rmtreeOk = true) : (convert pdf env mp).tempDirExists = false := by
  unfold convert
  repeat' split
  all_goals simp [h]
  all_goals split <;> simp

theorem raster_fail (pdf : PdfFile) (env : Env) (mp : Nat)
    (h : env.rasterOk = false) : (convert pdf env mp).success = false := by
  unfold convert
  repeat' split
  all_goals simp_all

/-! ## Concrete sample inputs used by witnesses and counterexamples -/

/-- An environment in which every effectful call succeeds. -/
def envAllOk : Env :=
  { mkdtempOk := true, rasterOk := true, imgSave := ImgSave.jpegOk,
    saveOk := true, rmtreeOk := true }

/-- An environment in which only the temp-directory removal fails. -/
def envNoRmtree : Env :=
  { mkdtempOk := true, rasterOk := true, imgSave := ImgSave.jpegOk,
    saveOk := true, rmtreeOk := false }

/-- An environment in which rasterization fails. -/
def envNoRaster : Env :=
  { mkdtempOk := true, rasterOk := false, imgSave := ImgSave.jpegOk,
    saveOk := true, rmtreeOk := true }

/-- A page whose extracted text is comfortably over the 20-character
threshold. -/
def longText : List Char :=
  "This page has a decent amount of content.".data

/-- A readable two-page PDF: one long page, one short page. -/
def samplePdf : PdfFile :=
  { readable := true, pages := [⟨true, longText⟩, ⟨true, "hi".data⟩] }

/-- A readable one-page PDF whose raw text holds three consecutive
newlines. -/
def tripleNLPdf : PdfFile :=
  { readable := true, pages := [⟨true, "a\n\n\nb".data⟩] }

/-- A readable PDF with zero pages. -/
def emptyPdf : PdfFile :=
  { readable := true, pages := [] }

/-- A readable one-page PDF whose only page fails text extraction. -/
def failPdf : PdfFile :=
  { readable := true, pages := [⟨false, "xyz".data⟩] }

/-- A regular file named `.gitkeep` with modification time 0. -/
def gitkeepEntry : FsEntry :=
  { name := ".gitkeep".data, isRegularFile := true, mtime := 0 }

/-! ## The claims -/

/-- C1: for every valid PDF (readable, at least one page) converted in
an environment where the library calls succeed, `convert` with
`max_pages = 30` succeeds and the saved presentation has exactly
`min P 30` slides, with the page-limit warning logged exactly when
`P > 30`. -/
theorem claim_c1 (pdf : PdfFile) (env : Env)
    (hr : pdf.readable = true) (hp : 0 < pdf.pages.length)
    (h1 : env.mkdtempOk = true) (h2 : env.rasterOk = true)
    (h3 : env.imgSave ≠ ImgSave.bothFail) (h4 : env.saveOk = true) :
    (convert pdf env 30).success = true ∧
      (convert pdf env 30).slides.length = min pdf.pages.length 30 ∧
      ((convert pdf env 30).warned = true ↔ 30 < pdf.pages.length) :=
  convert_ok pdf env hr hp h1 h2 h3 h4

/-- Witness for C1 at a concrete two-page PDF. -/
theorem claim_c1_witness :
    (convert samplePdf envAllOk 30).success = true ∧
      (convert samplePdf envAllOk 30).slides.length = min samplePdf.pages.length 30 ∧
      ((convert samplePdf envAllOk 30).warned = true ↔ 30 < samplePdf.pages.length) :=
  claim_c1 samplePdf envAllOk rfl (by decide) rfl rfl (by decide) rfl

/-- C2: in the slide loop, when the text looked up for page `i + 1` is
empty or has stripped length under 20 the built slide's content box
holds the fixed pattern `[Edit this text - Content from page i+1]` as a
substring; otherwise the content box holds the extracted text: its
paragraph runs are non-empty substrings of that text, and there is at
least one of them. -/
theorem claim_c2 (env : Env) (texts : List (List Char)) (i : Nat) :
    ((pageTextAt texts i = [] ∨ (pyStrip (pageTextAt texts i)).length < 20) →
      patternChars (i + 1) <:+: slideText (buildSlide env texts i).content) ∧
    (¬(pageTextAt texts i = [] ∨ (pyStrip (pageTextAt texts i)).length < 20) →
      contentParas (buildSlide env texts i).content ≠ [] ∧
      ∀ p ∈ contentParas (buildSlide env texts i).content,
        p ≠ [] ∧ p <:+: pageTextAt texts i) :=
  buildSlide_content env texts i

/-- Witness for C2: the placeholder branch at an empty page text, and
the extracted branch at a long page text. -/
theorem claim_c2_witness :
    (patternChars 1 <:+: slideText (buildSlide envAllOk [[]] 0).content) ∧
    (contentParas (buildSlide envAllOk [longText] 0).content ≠ [] ∧
      ∀ p ∈ contentParas (buildSlide envAllOk [longText] 0).content,
        p ≠ [] ∧ p <:+: pageTextAt [longText] 0) :=
  ⟨(claim_c2 envAllOk [[]] 0).1 (Or.inl rfl),
   (claim_c2 envAllOk [longText] 0).2 (by decide)⟩

/-- C3: for a PDF the reader can open, `extract_text_from_pdf` returns
one entry per processed page — `min (page count) max_pages` entries —
and a page whose extraction fails contributes the empty string without
aborting the others. -/
theorem claim_c3 (pdf : PdfFile) (mp : Nat) (h : pdf.readable = true) :
    (extract_text_from_pdf pdf mp).length = min pdf.pages.length mp ∧
    ∀ i pg, pdf.pages[i]? = some pg → i < mp → pg.extractOk = false →
      (extract_text_from_pdf pdf mp)[i]? = some [] := by
  unfold extract_text_from_pdf
  rw [if_pos h]
  constructor
  · rw [List.length_map, List.length_take]
    omega
  · intro i pg hpg hi hfail
    rw [List.getElem?_map, List.getElem?_take, if_pos hi, hpg]
    simp [hfail]

/-- Witness for C3 at a one-page PDF whose page fails extraction. -/
theorem claim_c3_witness :
    (extract_text_from_pdf failPdf 30).length = min failPdf.pages.length 30 ∧
    ∀ i pg, failPdf.pages[i]? = some pg → i < 30 → pg.extractOk = false →
      (extract_text_from_pdf failPdf 30)[i]? = some [] :=
  claim_c3 failPdf 30 rfl

/-- Counterexample to C4 as stated: the page text `"a\n\n\nb"` is
extracted successfully, the stored string is `"a\n\nb"`, and that stored
string still contains the substring `"\n\n"`, because Python's
`replace('\n\n', '\n')` is a single non-overlapping left-to-right pass. -/
theorem claim_c4_counterexample :
    (tripleNLPdf.pages.getD 0 ⟨false, []⟩).extractOk = true ∧
    (extract_text_from_pdf tripleNLPdf 30)[0]? = some "a\n\nb".data ∧
    ['\n', '\n'] <:+: "a\n\nb".data :=
  ⟨rfl, rfl, ⟨['a'], ['b'], rfl⟩⟩

/-- C4 (amended): for every page whose extraction succeeds, the stored
string is the raw text with one left-to-right pass replacing each
non-overlapping `"\n\n"` by `"\n"`, then stripped; the stored string has
no leading and no trailing whitespace, though it may still contain
`"\n\n"` when the raw text had three or more consecutive newlines. -/
theorem claim_c4_amended (pdf : PdfFile) (mp i : Nat) (pg : PdfPage)
    (hr : pdf.readable = true) (hpg : pdf.pages[i]? = some pg) (hi : i < mp)
    (hok : pg.extractOk = true) :
    (extract_text_from_pdf pdf mp)[i]? = some (cleanText pg.rawText) ∧
    (∀ c, (cleanText pg.rawText).head? = some c → isPyWs c = false) ∧
    (∀ c, (cleanText pg.rawText).getLast? = some c → isPyWs c = false) := by
  refine ⟨?_, ?_, ?_⟩
  · unfold extract_text_from_pdf
    rw [if_pos hr, List.getElem?_map, List.getElem?_take, if_pos hi, hpg]
    simp [hok]
  · intro c hc
    exact head?_pyStrip_false hc
  · intro c hc
    exact getLast?_pyStrip_false hc

/-- Witness for the amended C4 at the triple-newline PDF. -/
theorem claim_c4_witness :
    (extract_text_from_pdf tripleNLPdf 30)[0]? =
        some (cleanText ("a\n\n\nb".data)) ∧
    (∀ c, (cleanText ("a\n\n\nb".data)).head? = some c → isPyWs c = false) ∧
    (∀ c, (cleanText ("a\n\n\nb".data)).getLast? = some c → isPyWs c = false) :=
  claim_c4_amended tripleNLPdf 30 0 ⟨true, "a\n\n\nb".data⟩ rfl rfl (by decide) rfl

/-- C5: `convert` turns every stage failure into the return value
`false` instead of propagating an exception; in particular an unreadable
PDF and a 0-page PDF both yield `false`. -/
theorem claim_c5 (pdf : PdfFile) (env : Env) (mp : Nat)
    (h : pdf.readable = false ∨ pdf.pages.length = 0 ∨ env.mkdtempOk = false ∨
      env.rasterOk = false ∨ env.imgSave = ImgSave.bothFail ∨ env.saveOk = false) :
    (convert pdf env mp).success = false := by
  by_contra hs
  rw [Bool.not_eq_false] at hs
  obtain ⟨r, l, m, ra, im, sa⟩ := success_implies pdf env mp hs
  rcases h with h | h | h | h | h | h <;> simp_all

/-- Witness for C5 at a readable 0-page PDF. -/
theorem claim_c5_witness : (convert emptyPdf envAllOk 30).success = false :=
  claim_c5 emptyPdf envAllOk 30 (Or.inr (Or.inl rfl))

/-- Counterexample to C6 as stated: a conversion that otherwise works,
but in which `shutil.rmtree` raises, leaves the temporary directory in
place after `convert` returns, because the `except` at
converter.py:114-115 swallows the removal error. -/
theorem claim_c6_counterexample :
    (convert samplePdf envNoRmtree 30).success = true ∧
    (convert samplePdf envNoRmtree 30).tempDirExists = true :=
  ⟨rfl, rfl⟩

/-- C6 (amended): whenever the temp-directory removal itself succeeds,
the temporary directory does not exist after `convert` returns,
regardless of whether the conversion succeeded or any stage raised. -/
theorem claim_c6_amended (pdf : PdfFile) (env : Env) (mp : Nat)
    (h : env.rmtreeOk = true) : (convert pdf env mp).tempDirExists = false :=
  tempdir_gone pdf env mp h

/-- Witness for the amended C6 at a concrete conversion. -/
theorem claim_c6_witness : (convert samplePdf envAllOk 30).tempDirExists = false :=
  claim_c6_amended samplePdf envAllOk 30 rfl

/-- C7: a POST /upload whose filename has no dot, or whose lowercased
name does not end in `.pdf`, is rejected — flash message set, redirect
issued — before the uploaded file is saved to disk. -/
theorem claim_c7 (fn : List Char)
    (h : fn.contains '.' = false ∨ ¬(".pdf".data <:+ fn.map Char.toLower)) :
    (upload_file (some fn)).fileSaved = false ∧
    (upload_file (some fn)).flashMessage ≠ none ∧
    (upload_file (some fn)).redirected = true := by
  have hal : allowed_file fn = false := by
    cases hb : allowed_file fn
    · rfl
    · exfalso
      rcases h with h | h
      · unfold allowed_file at hb
        rw [h] at hb
        simp at hb
      · exact h (allowed_suffix hb)
  by_cases hemp : fn.isEmpty
  · simp [upload_file, hemp]
  · simp [upload_file, hemp, hal]

/-- Witness for C7 at the filename `evil.exe`. -/
theorem claim_c7_witness :
    (upload_file (some "evil.exe".data)).fileSaved = false ∧
    (upload_file (some "evil.exe".data)).flashMessage ≠ none ∧
    (upload_file (some "evil.exe".data)).redirected = true :=
  claim_c7 ("evil.exe".data) (Or.inr (by decide))

/-- C8: a rasterization failure aborts the whole job — `convert`
returns `false` — unlike the per-page tolerance of the text extractor. -/
theorem claim_c8 (pdf : PdfFile) (env : Env) (mp : Nat)
    (h : env.rasterOk = false) : (convert pdf env mp).success = false :=
  raster_fail pdf env mp h

/-- Witness for C8 at a concrete PDF with failing rasterization. -/
theorem claim_c8_witness : (convert samplePdf envNoRaster 30).success = false :=
  claim_c8 samplePdf envNoRaster 30 rfl

/-- Counterexample to C9 as stated: a regular file named `.gitkeep`
whose age exceeds one hour survives the sweep triggered by GET /,
because the loop at app.py:41-42 skips that name before the age check. -/
theorem claim_c9_counterexample :
    gitkeepEntry.isRegularFile = true ∧
    (10000 : Int) - gitkeepEntry.mtime > 3600 ∧
    (indexRoute 10000 (fun _ => true) [gitkeepEntry] []).1.1 = [gitkeepEntry] :=
  ⟨rfl, by decide, rfl⟩

/-- C9 (amended): on GET /, assuming each `os.remove` succeeds, the
sweep deletes from the upload and output folders exactly the regular
files older than 3600 seconds other than entries named `.gitkeep`;
everything else — young files, non-regular entries, and `.gitkeep` — is
left in place. -/
theorem claim_c9_amended (now : Int) (removeOk : List Char → Bool)
    (upload output : List FsEntry) (h : ∀ n, removeOk n = true) (f : FsEntry) :
    (f ∈ (indexRoute now removeOk upload output).1.1 ↔
      f ∈ upload ∧ deletable now f = false) ∧
    (f ∈ (indexRoute now removeOk upload output).1.2 ↔
      f ∈ output ∧ deletable now f = false) := by
  unfold indexRoute cleanup_old_files
  rw [sweepFolder_eq_filter now removeOk h upload,
    sweepFolder_eq_filter now removeOk h output]
  constructor
  · rw [List.mem_filter]
    simp
  · rw [List.mem_filter]
    simp

/-- Witness for the amended C9 at the `.gitkeep` folder. -/
theorem claim_c9_witness :
    (gitkeepEntry ∈ (indexRoute 10000 (fun _ => true) [gitkeepEntry] []).1.1 ↔
      gitkeepEntry ∈ [gitkeepEntry] ∧ deletable 10000 gitkeepEntry = false) ∧
    (gitkeepEntry ∈ (indexRoute 10000 (fun _ => true) [gitkeepEntry] []).1.2 ↔
      gitkeepEntry ∈ ([] : List FsEntry) ∧ deletable 10000 gitkeepEntry = false) :=
  claim_c9_amended 10000 (fun _ => true) [gitkeepEntry] [] (fun _ => rfl) gitkeepEntry

/-- C10: the per-page text lookup of the slide loop is total: it reads
the extracted-text list at `i` exactly when `i` is in range and yields
the empty string otherwise, so no out-of-range access occurs. -/
theorem claim_c10 (texts : List (List Char)) (i : Nat) :
    (∀ h : i < texts.length, pageTextAt texts i = texts[i]) ∧
    (texts.length ≤ i → pageTextAt texts i = []) := by
  constructor
  · intro h
    unfold pageTextAt
    rw [if_pos h, List.getD_eq_getElem?_getD, List.getElem?_eq_getElem h]
    rfl
  · intro h
    unfold pageTextAt
    rw [if_neg (by omega)]

/-- Witness for C10 with a one-entry list, in range and out of range. -/
theorem claim_c10_witness :
    pageTextAt [['a']] 0 = ['a'] ∧ pageTextAt [['a']] 5 = [] :=
  ⟨(claim_c10 [['a']] 0).1 (by decide), (claim_c10 [['a']] 5).2 (by decide)⟩

end PDFtoSlides
